import Mathlib

/-!
Verification of the FLOUZ point-of-sale server (`server/storage.ts`,
`server/routes.ts`, shared schema) against its natural-language
specification.

Embedding conventions:
- JavaScript `Map` objects are embedded as insertion-ordered association
  lists with unique keys; `Map.set` replaces an existing binding in place
  and otherwise appends, `Map.get` finds the first binding, `Map.delete`
  removes the binding.
- Monetary values (PostgreSQL `decimal(10,2)` strings in the source,
  parsed with `parseFloat`) are embedded as exact rationals; JavaScript
  number arithmetic on them is modelled as exact rational arithmetic, and
  `Number.prototype.toFixed(2)` as rounding to the nearest multiple of
  1/100, half toward positive infinity (the tie rule of the ECMAScript
  `toFixed` specification).
- Timestamps (`Date.now()`, `expiresAt`) are embedded as natural numbers
  of milliseconds; `createdAt` fields are carried where a claim needs
  them and dropped otherwise.
- The random token produced by `nanoid(32)` and the outcome of the
  outbound Telegram call are nondeterministic inputs; they are passed to
  the embedded operations as explicit parameters.
-/

/-- Association-list lookup: first binding for the key, like `Map.get`. -/
def mapGet {α : Type} {κ : Type} [DecidableEq κ] (m : List (κ × α)) (k : κ) : Option α :=
  (m.find? (fun p => p.1 = k)).map (fun p => p.2)

/-- Association-list update, like `Map.set`: replace the binding in place
when the key is present, append otherwise. -/
def mapSet {α : Type} {κ : Type} [DecidableEq κ] (m : List (κ × α)) (k : κ) (v : α) :
    List (κ × α) :=
  if m.any (fun p => p.1 = k) then
    m.map (fun p => if p.1 = k then (k, v) else p)
  else
    m ++ [(k, v)]

/-- Association-list removal, like `Map.delete`. -/
def mapDelete {α : Type} {κ : Type} [DecidableEq κ] (m : List (κ × α)) (k : κ) :
    List (κ × α) :=
  m.filter (fun p => ¬ p.1 = k)

/-- ECMAScript `toFixed(2)` on an exact rational: the integer n minimising
the distance of n/100 to x, ties resolved toward the larger n, read back
as the rational n/100. -/
def round2 (x : ℚ) : ℚ :=
  (⌊100 * x + 1/2⌋ : ℚ) / 100

/-- Account record (table `accounts` of the shared schema). -/
structure Account where
  id : Nat
  email : String
  password : String
  isDemo : Bool
  isMaster : Bool
  isActive : Bool
  telegramChatId : Option String
  telegramBotToken : Option String
deriving DecidableEq, Repr

/-- Employee record (table `users` of the shared schema; the source calls
employees "users"). -/
structure User where
  id : Nat
  accountId : Nat
  firstName : String
  lastName : String
  isActive : Bool
deriving DecidableEq, Repr

/-- Session record (table `sessions`). `expiresAt` is a timestamp in
milliseconds. -/
structure Session where
  id : Nat
  accountId : Nat
  selectedUserId : Option Nat
  token : String
  expiresAt : Nat
deriving DecidableEq, Repr

/-- Category record (table `categories`). -/
structure Category where
  id : Nat
  name : String
  color : String
deriving DecidableEq, Repr

/-- Product record (table `products`). `price` is the exact rational value
of the `decimal(10,2)` string; `stock` is nullable (`none` = untracked). -/
structure Product where
  id : Nat
  name : String
  price : ℚ
  categoryId : Option Nat
  barcode : Option String
  image : Option String
  stock : Option Int
  isActive : Bool
deriving DecidableEq, Repr

/-- Payment methods accepted by `checkoutSchema` (`z.enum`). -/
inductive PaymentMethod where
  | cash
  | card
  | check
deriving DecidableEq, Repr

/-- Transaction record (table `transactions`). `total` is the exact
rational value of the stored decimal string. -/
structure Txn where
  id : Nat
  accountId : Nat
  userId : Nat
  total : ℚ
  paymentMethod : PaymentMethod
deriving DecidableEq, Repr

/-- Transaction line-item record (table `transaction_items`). -/
structure TxnItem where
  id : Nat
  transactionId : Nat
  productId : Nat
  quantity : ℚ
  unitPrice : ℚ
  totalPrice : ℚ
deriving DecidableEq, Repr

/-- The `MemStorage` state: one insertion-ordered map per entity plus the
manually incremented id counters. Sessions are keyed by token, everything
else by numeric id. -/
structure Store where
  accounts : List (Nat × Account)
  users : List (Nat × User)
  sessions : List (String × Session)
  categories : List (Nat × Category)
  products : List (Nat × Product)
  transactions : List (Nat × Txn)
  transactionItems : List (Nat × TxnItem)
  currentAccountId : Nat
  currentUserId : Nat
  currentSessionId : Nat
  currentCategoryId : Nat
  currentProductId : Nat
  currentTransactionId : Nat
  currentTransactionItemId : Nat
deriving DecidableEq, Repr

/-- MemStorage.getAccount. -/
def getAccount (s : Store) (id : Nat) : Option Account :=
  mapGet s.accounts id

/-- MemStorage.getAccountByEmail: first account (in insertion order) whose
email matches. -/
def getAccountByEmail (s : Store) (email : String) : Option Account :=
  ((s.accounts.map (fun p => p.2)).find? (fun a => a.email = email))

/-- MemStorage.getUser. -/
def getUser (s : Store) (id : Nat) : Option User :=
  mapGet s.users id

/-- MemStorage.getProduct. -/
def getProduct (s : Store) (id : Nat) : Option Product :=
  mapGet s.products id

/-- MemStorage.getProductsByCategory. -/
def getProductsByCategory (s : Store) (categoryId : Nat) : List Product :=
  (s.products.map (fun p => p.2)).filter (fun p => p.categoryId = some categoryId)

/-- MemStorage.createSession: builds a session expiring 7 days from `now`
(milliseconds) with the supplied `nanoid` token and stores it under the
token key. Returns the session and the updated store. -/
def createSession (s : Store) (accountId : Nat) (token : String) (now : Nat) :
    Session × Store :=
  let sess : Session :=
    { id := s.currentSessionId
      accountId := accountId
      selectedUserId := none
      token := token
      expiresAt := now + 7 * 24 * 60 * 60 * 1000 }
  (sess,
    { s with
        sessions := mapSet s.sessions token sess
        currentSessionId := s.currentSessionId + 1 })

/-- MemStorage.getSession: returns the session when it exists and
`expiresAt > now` holds strictly; an existing but expired session is
deleted from the store by the lookup itself; otherwise `none`. -/
def getSession (s : Store) (token : String) (now : Nat) : Option Session × Store :=
  match mapGet s.sessions token with
  | some sess =>
      if now < sess.expiresAt then (some sess, s)
      else (none, { s with sessions := mapDelete s.sessions token })
  | none => (none, s)

/-- MemStorage.deleteSession. -/
def deleteSession (s : Store) (token : String) : Store :=
  { s with sessions := mapDelete s.sessions token }

/-- MemStorage.deleteAccountSessions: removes every session whose
accountId matches. -/
def deleteAccountSessions (s : Store) (accountId : Nat) : Store :=
  { s with sessions := s.sessions.filter (fun p => ¬ p.2.accountId = accountId) }

/-- MemStorage.selectUser: looks the session up directly in the map (no
expiry check), requires the user to exist and to belong to the session's
account, then replaces the session with one carrying `selectedUserId`. -/
def selectUser (s : Store) (token : String) (userId : Nat) :
    Option Session × Store :=
  match mapGet s.sessions token with
  | none => (none, s)
  | some sess =>
      match getUser s userId with
      | none => (none, s)
      | some u =>
          if u.accountId = sess.accountId then
            let updated : Session := { sess with selectedUserId := some userId }
            (some updated, { s with sessions := mapSet s.sessions token updated })
          else (none, s)

/-- MemStorage.deleteAccount: refuses for a master account; otherwise
deletes every user and every session belonging to the account, then the
account itself. Returns whether the account map held the id. -/
def deleteAccount (s : Store) (id : Nat) : Bool × Store :=
  match getAccount s id with
  | some a =>
      if a.isMaster then (false, s)
      else
        (s.accounts.any (fun p => p.1 = id),
          { s with
              users := s.users.filter (fun p => ¬ p.2.accountId = id)
              sessions := s.sessions.filter (fun p => ¬ p.2.accountId = id)
              accounts := mapDelete s.accounts id })
  | none =>
      (s.accounts.any (fun p => p.1 = id),
        { s with
            users := s.users.filter (fun p => ¬ p.2.accountId = id)
            sessions := s.sessions.filter (fun p => ¬ p.2.accountId = id)
            accounts := mapDelete s.accounts id })

/-- MemStorage.deleteCategory: unconditional `Map.delete`; no check for
products referencing the category. Returns whether the id was present. -/
def deleteCategory (s : Store) (id : Nat) : Bool × Store :=
  (s.categories.any (fun p => p.1 = id),
    { s with categories := mapDelete s.categories id })

/-- MemStorage.updateProduct: merges the given partial record onto the
existing product (here specialised to the fields a caller may supply;
`none` in a field of the partial means "field absent"). Returns `none`
when the id does not exist. -/
def updateProduct (s : Store) (id : Nat) (stock : Option (Option Int))
    (isActive : Option Bool) (price : Option ℚ) : Option Product × Store :=
  match getProduct s id with
  | none => (none, s)
  | some p =>
      let updated : Product :=
        { p with
            stock := stock.getD p.stock
            isActive := isActive.getD p.isActive
            price := price.getD p.price }
      (some updated, { s with products := mapSet s.products id updated })

/-- MemStorage.createTransaction. -/
def createTransaction (s : Store) (accountId userId : Nat) (total : ℚ)
    (pm : PaymentMethod) : Txn × Store :=
  let t : Txn :=
    { id := s.currentTransactionId
      accountId := accountId
      userId := userId
      total := total
      paymentMethod := pm }
  (t, { s with
          transactions := mapSet s.transactions t.id t
          currentTransactionId := s.currentTransactionId + 1 })

/-- MemStorage.createTransactionItem. -/
def createTransactionItem (s : Store) (transactionId productId : Nat)
    (quantity unitPrice totalPrice : ℚ) : TxnItem × Store :=
  let it : TxnItem :=
    { id := s.currentTransactionItemId
      transactionId := transactionId
      productId := productId
      quantity := quantity
      unitPrice := unitPrice
      totalPrice := totalPrice }
  (it, { s with
           transactionItems := mapSet s.transactionItems it.id it
           currentTransactionItemId := s.currentTransactionItemId + 1 })

/-- MemStorage.getTransactionItems. -/
def getTransactionItems (s : Store) (transactionId : Nat) : List TxnItem :=
  (s.transactionItems.map (fun p => p.2)).filter
    (fun it => it.transactionId = transactionId)

/-- Cart line of `checkoutSchema`: `cartItemSchema` is
`z.object({productId: z.number(), quantity: z.number().min(1)})` — the
quantity is only constrained to be a number at least 1, not an integer. -/
structure CartItem where
  productId : Nat
  quantity : ℚ
deriving DecidableEq, Repr

/-- Validation performed by `checkoutSchema.parse` on the items: every
quantity is at least 1 (`z.number().min(1)`). -/
def zodItemsOk (items : List CartItem) : Bool :=
  items.all (fun it => 1 ≤ it.quantity)

/-- Truthiness of a nullable string in JavaScript: `null`, `undefined`
and the empty string are falsy. -/
def strTruthy : Option String → Bool
  | none => false
  | some str => ¬ str = ""

/-- Outcome of the `requireAuth` middleware. The three failure
constructors are all surfaced as HTTP 401. -/
inductive AuthResult where
  | noToken
  | invalidSession
  | accountNotFound
  | ok (session : Session) (account : Account) (selectedUser : Option User)
deriving DecidableEq, Repr

/-- The `requireAuth` middleware: strips the bearer token (absent or empty
string is falsy, hence 401), resolves the session via
`storage.getSession` (which lazily deletes an expired session), then the
owning account, then the optionally selected user. -/
def requireAuth (s : Store) (token : Option String) (now : Nat) :
    AuthResult × Store :=
  match token with
  | none => (.noToken, s)
  | some t =>
      if t = "" then (.noToken, s)
      else
        match getSession s t now with
        | (none, s1) => (.invalidSession, s1)
        | (some sess, s1) =>
            match getAccount s1 sess.accountId with
            | none => (.accountNotFound, s1)
            | some acc =>
                let sel : Option User :=
                  match sess.selectedUserId with
                  | some uid => if uid = 0 then none else getUser s1 uid
                  | none => none
                (.ok sess acc sel, s1)

/-- Outcome of `POST /api/auth/login`. `invalidCredentials` and
`accountDisabled` are both surfaced as HTTP 401. -/
inductive LoginResult where
  | invalidCredentials
  | accountDisabled
  | ok (token : String) (accountId : Nat)
deriving DecidableEq, Repr

/-- The `POST /api/auth/login` route body (after a successful
`loginSchema.parse`; a parse failure returns 400 and touches nothing):
looks the account up by email, compares the plaintext password, rejects a
disabled account, then deletes every existing session of the account and
creates the new one. `newToken` stands for the `nanoid(32)` value. -/
def login (s : Store) (email password newToken : String) (now : Nat) :
    LoginResult × Store :=
  match getAccountByEmail s email with
  | none => (.invalidCredentials, s)
  | some a =>
      if ¬ a.password = password then (.invalidCredentials, s)
      else if ¬ a.isActive then (.accountDisabled, s)
      else
        let s1 := deleteAccountSessions s a.id
        let r := createSession s1 a.id newToken now
        (.ok r.1.token a.id, r.2)

/-- Outcome of `POST /api/auth/select-user` (after `requireAuth`). -/
inductive SelectUserResult where
  | invalidUser
  | ok (selectedUser : Option User)
deriving DecidableEq, Repr

/-- The `POST /api/auth/select-user` route body, given the session that
`requireAuth` attached to the request: delegates to
`storage.selectUser` and returns 400 when it yields nothing. -/
def selectUserRoute (s : Store) (session : Session) (userId : Nat) :
    SelectUserResult × Store :=
  match selectUser s session.token userId with
  | (none, s1) => (.invalidUser, s1)
  | (some _, s1) => (.ok (getUser s1 userId), s1)

/-- Outcome of `DELETE /api/categories/:id` (after `requireAuth`). -/
inductive DeleteCategoryResult where
  | cannotDelete
  | ok
deriving DecidableEq, Repr

/-- The `DELETE /api/categories/:id` route body: calls
`storage.deleteCategory` and returns 400 exactly when it reports `false`
(which happens only when the id is absent from the map). -/
def deleteCategoryRoute (s : Store) (id : Nat) : DeleteCategoryResult × Store :=
  match deleteCategory s id with
  | (false, s1) => (.cannotDelete, s1)
  | (true, s1) => (.ok, s1)

/-- First loop of the checkout route, with `acc` playing the role of the
mutable `total`: for each requested line in order, look the product up
(abort with its id on the first miss) and accumulate
`total += parseFloat(product.price) * item.quantity`. -/
def computeTotalAux (s : Store) (acc : ℚ) : List CartItem → Except Nat ℚ
  | [] => .ok acc
  | it :: rest =>
      match getProduct s it.productId with
      | none => .error it.productId
      | some p => computeTotalAux s (acc + p.price * it.quantity) rest

/-- The first loop of the checkout route started with `total = 0`. -/
def computeTotal (s : Store) (items : List CartItem) : Except Nat ℚ :=
  computeTotalAux s 0 items

/-- Exact value a single requested line contributes to the running total:
`parseFloat(product.price) * item.quantity` (0 for a missing product,
which in fact aborts the loop). -/
def linePrice (s : Store) (it : CartItem) : ℚ :=
  match getProduct s it.productId with
  | some p => p.price * it.quantity
  | none => 0

/-- Second loop of the checkout route: for each requested line whose
product (still) exists, create a `TransactionItem` snapshot with
`unitPrice = product.price` and `totalPrice = (price * quantity).toFixed(2)`.
Lines whose product is missing are silently skipped. -/
def createItems (txnId : Nat) : Store → List CartItem → Store
  | s, [] => s
  | s, it :: rest =>
      match getProduct s it.productId with
      | none => createItems txnId s rest
      | some p =>
          let r := createTransactionItem s txnId it.productId it.quantity
            p.price (round2 (p.price * it.quantity))
          createItems txnId r.2 rest

/-- Outcome of `POST /api/transactions/checkout`. `noUserSelected` and
`productNotFound` are HTTP 400; `invalidBody` is the catch-all 500 the
route returns when `checkoutSchema.parse` throws. -/
inductive CheckoutResult where
  | noUserSelected
  | invalidBody
  | productNotFound (productId : Nat)
  | ok (txn : Txn)
deriving DecidableEq, Repr

/-- The `POST /api/transactions/checkout` route body, given the session
and account attached by `requireAuth`: requires a truthy
`selectedUserId`, validates the body, computes the total over the
requested lines (400 on the first missing product, before any mutation),
stores the transaction with `total.toFixed(2)`, then creates the line
items. No stock check, no stock decrement and no `isActive` check occur
anywhere in this route. -/
def checkout (s : Store) (session : Session) (account : Account)
    (items : List CartItem) (pm : PaymentMethod) : CheckoutResult × Store :=
  if session.selectedUserId.getD 0 = 0 then (.noUserSelected, s)
  else if ¬ zodItemsOk items then (.invalidBody, s)
  else
    match computeTotal s items with
    | .error pid => (.productNotFound pid, s)
    | .ok total =>
        let uid := session.selectedUserId.getD 0
        let r := createTransaction s account.id uid (round2 total) pm
        (.ok r.1, createItems r.1.id r.2 items)

/-- Outcome of `POST /api/close-register`. `authFailed` covers the 401
paths of `requireAuth`; `noUserSelected` and `telegramConfigMissing` are
400; `dispatchFailed` is 500. -/
inductive CloseRegisterResult where
  | authFailed
  | noUserSelected
  | telegramConfigMissing
  | dispatchFailed
  | ok
deriving DecidableEq, Repr

/-- The `POST /api/close-register` route: after `requireAuth`, requires a
selected user, requires both Telegram configuration strings to be truthy,
computes the (read-only) daily summary and dispatches it — the outcome of
the outbound `sendTelegramMessage` call is the parameter `dispatchOk` —
and only on a successful dispatch deletes the caller's session. -/
def closeRegister (s : Store) (token : Option String) (now : Nat)
    (dispatchOk : Bool) : CloseRegisterResult × Store :=
  match requireAuth s token now with
  | (.ok _ acc sel, s1) =>
      match sel with
      | none => (.noUserSelected, s1)
      | some _ =>
          if ¬ (strTruthy acc.telegramChatId ∧ strTruthy acc.telegramBotToken) then
            (.telegramConfigMissing, s1)
          else if ¬ dispatchOk then (.dispatchFailed, s1)
          else
            match token with
            | some t => (.ok, deleteSession s1 t)
            | none => (.ok, s1)
  | (_, s1) => (.authFailed, s1)

/-- The store produced by the `MemStorage` constructor: the seeded demo
and master accounts, one employee each, four categories and eight
products (`createDemoAccounts`, `createDemoData`). -/
def initialStore : Store :=
  { accounts :=
      [ (1, { id := 1, email := "demo@flouz.com", password := "demo123",
              isDemo := true, isMaster := false, isActive := true,
              telegramChatId := none, telegramBotToken := none }),
        (2, { id := 2, email := "flouz@mail.com", password := "rootsesmort",
              isDemo := false, isMaster := true, isActive := true,
              telegramChatId := none, telegramBotToken := none }) ]
    users :=
      [ (1, { id := 1, accountId := 1, firstName := "Demo",
              lastName := "User", isActive := true }),
        (2, { id := 2, accountId := 2, firstName := "Admin",
              lastName := "Master", isActive := true }) ]
    sessions := []
    categories :=
      [ (1, { id := 1, name := "Boissons", color := "#3B82F6" }),
        (2, { id := 2, name := "Snacks", color := "#EF4444" }),
        (3, { id := 3, name := "Repas", color := "#10B981" }),
        (4, { id := 4, name := "Desserts", color := "#F59E0B" }) ]
    products :=
      [ (1, { id := 1, name := "Coca-Cola", price := 5/2, categoryId := some 1,
              barcode := none, image := none, stock := some 50, isActive := true }),
        (2, { id := 2, name := "Eau minérale", price := 6/5, categoryId := some 1,
              barcode := none, image := none, stock := some 30, isActive := true }),
        (3, { id := 3, name := "Café", price := 9/5, categoryId := some 1,
              barcode := none, image := none, stock := some 100, isActive := true }),
        (4, { id := 4, name := "Chips", price := 7/2, categoryId := some 2,
              barcode := none, image := none, stock := some 25, isActive := true }),
        (5, { id := 5, name := "Sandwich jambon", price := 9/2, categoryId := some 3,
              barcode := none, image := none, stock := some 15, isActive := true }),
        (6, { id := 6, name := "Salade César", price := 79/10, categoryId := some 3,
              barcode := none, image := none, stock := some 10, isActive := true }),
        (7, { id := 7, name := "Muffin chocolat", price := 14/5, categoryId := some 4,
              barcode := none, image := none, stock := some 20, isActive := true }),
        (8, { id := 8, name := "Tarte aux pommes", price := 16/5, categoryId := some 4,
              barcode := none, image := none, stock := some 12, isActive := true }) ]
    transactions := []
    transactionItems := []
    currentAccountId := 3
    currentUserId := 3
    currentSessionId := 1
    currentCategoryId := 5
    currentProductId := 9
    currentTransactionId := 1
    currentTransactionItemId := 1 }

/-- The seeded demo account, as stored in `initialStore`. -/
def demoAccount : Account :=
  { id := 1, email := "demo@flouz.com", password := "demo123",
    isDemo := true, isMaster := false, isActive := true,
    telegramChatId := none, telegramBotToken := none }

/-- The seeded employee of the demo account, as stored in
`initialStore`. -/
def demoUser : User :=
  { id := 1, accountId := 1, firstName := "Demo", lastName := "User",
    isActive := true }

/-- Test fixture: a session for the demo account with employee 1
selected, as the POS flow produces before a checkout. -/
def posSession : Session :=
  { id := 1, accountId := 1, selectedUserId := some 1, token := "tok",
    expiresAt := 604800000 }

/-- The session record `storage.selectUser` writes back: the input
session with `selectedUserId` attached. -/
def withSelected (sess : Session) (uid : Nat) : Session :=
  { sess with selectedUserId := some uid }

/-- Test fixture: the demo account with a Telegram configuration, as
`PUT /api/master/accounts/1` leaves it. -/
def telegramAccount : Account :=
  { demoAccount with
      telegramChatId := some "12345", telegramBotToken := some "bot-token" }

/-- Test fixture: the seeded store after giving the demo account a
Telegram configuration and logging it in with employee 1 selected. -/
def telegramStore : Store :=
  { initialStore with
      accounts := mapSet initialStore.accounts 1 telegramAccount
      sessions := [("tok", posSession)] }

/-- Test fixture: the seeded store with product 1 (Coca-Cola) marked
inactive, as `PUT /api/products/1` with `isActive: false` leaves it. -/
def inactiveStore : Store :=
  { initialStore with
      products := mapSet initialStore.products 1
        { id := 1, name := "Coca-Cola", price := 5/2, categoryId := some 1,
          barcode := none, image := none, stock := some 50, isActive := false } }

/-- MemStorage.toggleAccountStatus: flips `isActive` in place. -/
def toggleAccountStatus (s : Store) (id : Nat) : Option Account × Store :=
  match getAccount s id with
  | none => (none, s)
  | some a =>
      let updated : Account := { a with isActive := ¬ a.isActive }
      (some updated, { s with accounts := mapSet s.accounts id updated })

/-- Keys of an association list are pairwise distinct; this is an
intrinsic property of the JavaScript `Map` objects being embedded. -/
def keysNodup {α : Type} {κ : Type} (m : List (κ × α)) : Prop :=
  (m.map Prod.fst).Nodup

/-- Sessions of the store currently belonging to the given account. -/
def sessionsFor (s : Store) (aid : Nat) : List (String × Session) :=
  s.sessions.filter (fun p => p.2.accountId = aid)

/-- The single-session-per-account invariant of the spec, together with
key uniqueness (intrinsic to the JavaScript `Map` holding the sessions). -/
def sessionInvariant (s : Store) : Prop :=
  keysNodup s.sessions ∧ ∀ aid : Nat, (sessionsFor s aid).length ≤ 1

/-- One client-visible API request, abstracted to its effect on the
store. `stepLogin`, `stepAuth` (any `requireAuth`-guarded request,
including its lazy expiry deletion), `stepLogout`, `stepSelectUser`,
`stepCloseRegister` and `stepDeleteAccount` are the only operations in
`routes.ts` that touch the sessions map — in particular
`storage.createSession` is invoked solely from the login route, right
after `deleteAccountSessions` — and `stepSessionsOther` covers every
remaining storage mutation, none of which reads or writes sessions. -/
inductive ApiStep : Store → Store → Prop where
  | stepLogin (s : Store) (email password newToken : String) (now : Nat) :
      ApiStep s (login s email password newToken now).2
  | stepAuth (s : Store) (token : Option String) (now : Nat) :
      ApiStep s (requireAuth s token now).2
  | stepLogout (s : Store) (token : String) :
      ApiStep s (deleteSession s token)
  | stepSelectUser (s : Store) (sess : Session) (userId : Nat) :
      ApiStep s (selectUserRoute s sess userId).2
  | stepCloseRegister (s : Store) (token : Option String) (now : Nat)
      (dispatchOk : Bool) : ApiStep s (closeRegister s token now dispatchOk).2
  | stepDeleteAccount (s : Store) (id : Nat) :
      ApiStep s (deleteAccount s id).2
  | stepSessionsOther (s s2 : Store) (h : s2.sessions = s.sessions) :
      ApiStep s s2

theorem mapGet_cons {α κ : Type} [DecidableEq κ] (p : κ × α) (m : List (κ × α))
    (k : κ) : mapGet (p :: m) k = if p.1 = k then some p.2 else mapGet m k := by
  unfold mapGet
  by_cases hp : p.1 = k
  · rw [List.find?_cons_of_pos] <;> simp [hp]
  · rw [List.find?_cons_of_neg, if_neg hp]
    simp [hp]

theorem mapDelete_cons {α κ : Type} [DecidableEq κ] (p : κ × α)
    (m : List (κ × α)) (k : κ) :
    mapDelete (p :: m) k =
      if p.1 = k then mapDelete m k else p :: mapDelete m k := by
  unfold mapDelete
  by_cases hp : p.1 = k <;> simp [List.filter_cons, hp]

theorem mapGet_eq_some_any {α κ : Type} [DecidableEq κ] {m : List (κ × α)}
    {k : κ} {v : α} (h : mapGet m k = some v) :
    m.any (fun p => p.1 = k) = true := by
  induction m with
  | nil => simp [mapGet] at h
  | cons p rest ih =>
      rw [mapGet_cons] at h
      by_cases hp : p.1 = k
      · simp [hp]
      · rw [if_neg hp] at h
        simp [ih h]

theorem mapGet_eq_none_iff_any {α κ : Type} [DecidableEq κ] (m : List (κ × α))
    (k : κ) : mapGet m k = none ↔ m.any (fun p => p.1 = k) = false := by
  induction m with
  | nil => simp [mapGet]
  | cons p rest ih =>
      rw [mapGet_cons]
      by_cases hp : p.1 = k
      · simp [hp]
      · simp [hp, ih]

theorem mapGet_mem {α κ : Type} [DecidableEq κ] {m : List (κ × α)} {k : κ}
    {v : α} (h : mapGet m k = some v) : (k, v) ∈ m := by
  induction m with
  | nil => simp [mapGet] at h
  | cons p rest ih =>
      rw [mapGet_cons] at h
      by_cases hp : p.1 = k
      · rw [if_pos hp] at h
        have : p = (k, v) := by
          cases p
          simp only [Option.some_inj] at h
          simp_all
        simp [this]
      · rw [if_neg hp] at h
        exact List.mem_cons_of_mem _ (ih h)

theorem mapGet_mapDelete_self {α κ : Type} [DecidableEq κ] (m : List (κ × α))
    (k : κ) : mapGet (mapDelete m k) k = none := by
  induction m with
  | nil => simp [mapGet, mapDelete]
  | cons p rest ih =>
      rw [mapDelete_cons]
      by_cases hp : p.1 = k
      · rw [if_pos hp]
        exact ih
      · rw [if_neg hp, mapGet_cons, if_neg hp]
        exact ih

theorem mapGet_mapDelete_ne {α κ : Type} [DecidableEq κ] (m : List (κ × α))
    (k k2 : κ) (h : k ≠ k2) : mapGet (mapDelete m k) k2 = mapGet m k2 := by
  induction m with
  | nil => simp [mapGet, mapDelete]
  | cons p rest ih =>
      rw [mapDelete_cons, mapGet_cons]
      by_cases hp : p.1 = k
      · have hp2 : ¬ p.1 = k2 := by
          rw [hp]
          exact h
        rw [if_pos hp, if_neg hp2]
        exact ih
      · rw [if_neg hp, mapGet_cons]
        by_cases hp2 : p.1 = k2
        · rw [if_pos hp2, if_pos hp2]
        · rw [if_neg hp2, if_neg hp2]
          exact ih

theorem mapGet_setmap_self {α κ : Type} [DecidableEq κ] (m : List (κ × α))
    (k : κ) (v : α) :
    mapGet (m.map (fun p => if p.1 = k then (k, v) else p)) k =
      if m.any (fun p => p.1 = k) then some v else none := by
  induction m with
  | nil => simp [mapGet]
  | cons p rest ih =>
      simp only [List.map_cons, List.any_cons]
      by_cases hp : p.1 = k
      · rw [if_pos hp, mapGet_cons]
        simp [hp]
      · rw [if_neg hp, mapGet_cons, if_neg hp, ih]
        have hd : decide (p.1 = k) = false := decide_eq_false hp
        simp only [hd, Bool.false_or]

theorem mapGet_setmap_ne {α κ : Type} [DecidableEq κ] (m : List (κ × α))
    (k k2 : κ) (v : α) (h : k ≠ k2) :
    mapGet (m.map (fun p => if p.1 = k then (k, v) else p)) k2 =
      mapGet m k2 := by
  induction m with
  | nil => simp [mapGet]
  | cons p rest ih =>
      simp only [List.map_cons]
      by_cases hp : p.1 = k
      · have hp2 : ¬ p.1 = k2 := by
          rw [hp]
          exact h
        rw [if_pos hp, mapGet_cons, mapGet_cons, if_neg hp2, if_neg h, ih]
      · rw [if_neg hp, mapGet_cons, mapGet_cons, ih]

theorem mapGet_append_of_none {α κ : Type} [DecidableEq κ]
    (m1 m2 : List (κ × α)) (k : κ) (h : mapGet m1 k = none) :
    mapGet (m1 ++ m2) k = mapGet m2 k := by
  induction m1 with
  | nil => simp
  | cons p rest ih =>
      rw [mapGet_cons] at h
      by_cases hp : p.1 = k
      · rw [if_pos hp] at h
        exact absurd h (by simp)
      · rw [if_neg hp] at h
        rw [List.cons_append, mapGet_cons, if_neg hp]
        exact ih h

theorem mapGet_singleton_self {α κ : Type} [DecidableEq κ] (k : κ) (v : α) :
    mapGet [(k, v)] k = some v := by
  rw [mapGet_cons]
  simp

theorem mapGet_mapSet_self {α κ : Type} [DecidableEq κ] (m : List (κ × α))
    (k : κ) (v : α) : mapGet (mapSet m k v) k = some v := by
  unfold mapSet
  by_cases hany : m.any (fun p => p.1 = k) = true
  · rw [if_pos hany, mapGet_setmap_self, if_pos hany]
  · rw [if_neg hany]
    have hnone : mapGet m k = none := by
      rw [mapGet_eq_none_iff_any]
      exact Bool.not_eq_true _ ▸ hany
    rw [mapGet_append_of_none _ _ _ hnone, mapGet_singleton_self]

theorem mapGet_append_left {α κ : Type} [DecidableEq κ]
    (m1 m2 : List (κ × α)) (k : κ) {w : α} (h : mapGet m1 k = some w) :
    mapGet (m1 ++ m2) k = some w := by
  induction m1 with
  | nil => simp [mapGet] at h
  | cons p rest ih =>
      rw [mapGet_cons] at h
      rw [List.cons_append, mapGet_cons]
      by_cases hp : p.1 = k
      · rw [if_pos hp] at h
        rw [if_pos hp]
        exact h
      · rw [if_neg hp] at h
        rw [if_neg hp]
        exact ih h

theorem mapGet_mapSet_ne {α κ : Type} [DecidableEq κ] (m : List (κ × α))
    (k k2 : κ) (v : α) (h : k ≠ k2) :
    mapGet (mapSet m k v) k2 = mapGet m k2 := by
  unfold mapSet
  by_cases hany : m.any (fun p => p.1 = k) = true
  · rw [if_pos hany, mapGet_setmap_ne _ _ _ _ h]
  · rw [if_neg hany]
    cases hget : mapGet m k2 with
    | some w => rw [mapGet_append_left _ _ _ hget]
    | none =>
        rw [mapGet_append_of_none _ _ _ hget, mapGet_cons, if_neg h]
        simp [mapGet, hget]

theorem count_le_of_sublist {m1 m2 : List (String × Session)}
    (h : m1.Sublist m2) (aid : Nat) :
    (m1.filter (fun p => p.2.accountId = aid)).length ≤
      (m2.filter (fun p => p.2.accountId = aid)).length :=
  (h.filter _).length_le

theorem keysNodup_of_sublist {α κ : Type} {m1 m2 : List (κ × α)}
    (h : m1.Sublist m2) (h2 : keysNodup m2) : keysNodup m1 :=
  (h.map Prod.fst).nodup h2

theorem mapDelete_sublist {α κ : Type} [DecidableEq κ] (m : List (κ × α))
    (k : κ) : (mapDelete m k).Sublist m :=
  List.filter_sublist m

theorem keysNodup_mapSet {α κ : Type} [DecidableEq κ] (m : List (κ × α))
    (k : κ) (v : α) (h : keysNodup m) : keysNodup (mapSet m k v) := by
  unfold mapSet
  by_cases hany : m.any (fun p => p.1 = k) = true
  · rw [if_pos hany]
    unfold keysNodup
    have : (m.map (fun p => if p.1 = k then (k, v) else p)).map Prod.fst =
        m.map Prod.fst := by
      rw [List.map_map]
      apply List.map_congr_left
      intro p hp
      by_cases hpk : p.1 = k <;> simp [hpk]
    rw [this]
    exact h
  · rw [if_neg hany]
    unfold keysNodup
    rw [List.map_append]
    have hk : k ∉ m.map Prod.fst := by
      intro hmem
      rcases List.mem_map.mp hmem with ⟨p, hp, hpk⟩
      apply hany
      simp only [List.any_eq_true]
      exact ⟨p, hp, by simp [hpk]⟩
    unfold keysNodup at h
    simp [List.nodup_append, h, hk]

theorem mem_mapGet_of_keysNodup {α κ : Type} [DecidableEq κ]
    {m : List (κ × α)} {k : κ} {w : α} (hnd : keysNodup m)
    (hmem : (k, w) ∈ m) : mapGet m k = some w := by
  induction m with
  | nil => simp at hmem
  | cons p rest ih =>
      rw [mapGet_cons]
      rcases List.mem_cons.mp hmem with hph | hrest
      · rw [← hph]
        simp
      · have hnd2 : keysNodup rest := by
          unfold keysNodup at hnd ⊢
          exact (List.nodup_cons.mp hnd).2
        have hkmem : k ∈ rest.map Prod.fst :=
          List.mem_map.mpr ⟨(k, w), hrest, rfl⟩
        have hp1 : ¬ p.1 = k := by
          intro hpk
          have := (List.nodup_cons.mp hnd).1
          rw [hpk] at this
          exact this hkmem
        rw [if_neg hp1]
        exact ih hnd2 hrest

theorem count_mapSet_same_account {m : List (String × Session)} {k : String}
    {e v : Session} (hnd : keysNodup m) (hget : mapGet m k = some e)
    (hacc : v.accountId = e.accountId) (aid : Nat) :
    ((mapSet m k v).filter (fun p => p.2.accountId = aid)).length =
      (m.filter (fun p => p.2.accountId = aid)).length := by
  unfold mapSet
  rw [if_pos (mapGet_eq_some_any hget)]
  rw [← List.countP_eq_length_filter, ← List.countP_eq_length_filter,
    List.countP_map]
  apply List.countP_congr
  intro p hp
  by_cases hpk : p.1 = k
  · obtain ⟨k1, w⟩ := p
    simp only at hpk
    subst hpk
    have hw : mapGet m k1 = some w := mem_mapGet_of_keysNodup hnd hp
    rw [hget] at hw
    have hwe : w = e := by
      simpa using hw.symm
    subst hwe
    simp [Function.comp, hacc]
  · simp [Function.comp, hpk]

theorem count_mapSet_append {m : List (String × Session)} {k : String}
    (v : Session) (hany : ¬ m.any (fun p => p.1 = k) = true) (aid : Nat) :
    ((mapSet m k v).filter (fun p => p.2.accountId = aid)).length =
      (m.filter (fun p => p.2.accountId = aid)).length +
        (if v.accountId = aid then 1 else 0) := by
  unfold mapSet
  rw [if_neg hany, List.filter_append, List.length_append]
  congr 1
  by_cases hv : v.accountId = aid <;> simp [List.filter_cons, hv]

theorem countP_key_le_one {α κ : Type} [DecidableEq κ] (m : List (κ × α))
    (k : κ) (hnd : keysNodup m) : m.countP (fun p => p.1 = k) ≤ 1 := by
  induction m with
  | nil => simp
  | cons p rest ih =>
      unfold keysNodup at hnd
      simp only [List.map_cons, List.nodup_cons] at hnd
      obtain ⟨hnotin, hnd2⟩ := hnd
      rw [List.countP_cons]
      by_cases hp : p.1 = k
      · have hz : rest.countP (fun q => decide (q.1 = k)) = 0 := by
          rw [List.countP_eq_zero]
          intro q hq
          simp only [decide_eq_true_eq]
          intro hqk
          apply hnotin
          exact List.mem_map.mpr ⟨q, hq, by rw [hqk, hp]⟩
        simp [hz, hp]
      · simpa [hp] using ih hnd2

/-- Bound on the per-account session count after the `Map.set` that login
performs right after `deleteAccountSessions`: when no session of `m`
belongs to the new session's account, the count stays at most one. -/
theorem count_login_sessions (m : List (String × Session)) (atok : String)
    (v : Session) (aid : Nat) (hnd : keysNodup m)
    (hm : ∀ p ∈ m, ¬ p.2.accountId = v.accountId)
    (hcnt : (m.filter (fun p => p.2.accountId = aid)).length ≤ 1) :
    ((mapSet m atok v).filter (fun p => p.2.accountId = aid)).length ≤ 1 := by
  unfold mapSet
  by_cases hany : m.any (fun p => p.1 = atok) = true
  · rw [if_pos hany, ← List.countP_eq_length_filter, List.countP_map]
    rw [← List.countP_eq_length_filter] at hcnt
    by_cases hv : v.accountId = aid
    · have heq : m.countP
          ((fun p => decide (p.2.accountId = aid)) ∘
            (fun p => if p.1 = atok then (atok, v) else p)) =
          m.countP (fun p => p.1 = atok) := by
        apply List.countP_congr
        intro p hp
        by_cases hpk : p.1 = atok
        · simp [Function.comp, hpk, hv]
        · have hpacc : ¬ p.2.accountId = aid := by
            rw [← hv]
            exact hm p hp
          simp [Function.comp, hpk, hpacc]
      rw [heq]
      exact countP_key_le_one m atok hnd
    · have hle : m.countP
          ((fun p => decide (p.2.accountId = aid)) ∘
            (fun p => if p.1 = atok then (atok, v) else p)) ≤
          m.countP (fun p => decide (p.2.accountId = aid)) := by
        apply List.countP_mono_left
        intro p hp
        by_cases hpk : p.1 = atok
        · simp [Function.comp, hpk, hv]
        · simp [Function.comp, hpk]
      exact le_trans hle hcnt
  · rw [if_neg hany, List.filter_append, List.length_append]
    by_cases hv : v.accountId = aid
    · have hz : (m.filter (fun p => p.2.accountId = aid)).length = 0 := by
        rw [List.length_eq_zero, List.filter_eq_nil_iff]
        intro p hp
        simp only [decide_eq_true_eq]
        rw [hv] at hm
        exact hm p hp
      simp [hz, List.filter_cons, hv]
    · simp [List.filter_cons, hv, hcnt]

theorem getSession_sessions_sublist (s : Store) (t : String) (now : Nat) :
    ((getSession s t now).2).sessions.Sublist s.sessions := by
  unfold getSession
  cases hget : mapGet s.sessions t with
  | none => exact List.Sublist.refl _
  | some sess =>
      dsimp only
      by_cases hexp : now < sess.expiresAt
      · rw [if_pos hexp]
      · rw [if_neg hexp]
        exact mapDelete_sublist _ _

theorem requireAuth_sessions_sublist (s : Store) (tok : Option String)
    (now : Nat) : ((requireAuth s tok now).2).sessions.Sublist s.sessions := by
  unfold requireAuth
  cases tok with
  | none => exact List.Sublist.refl _
  | some t =>
      dsimp only
      by_cases ht : t = ""
      · rw [if_pos ht]
      · rw [if_neg ht]
        have h1 := getSession_sessions_sublist s t now
        cases hgs : getSession s t now with
        | mk res s1 =>
            rw [hgs] at h1
            cases res with
            | none => exact h1
            | some sess =>
                dsimp only
                cases getAccount s1 sess.accountId with
                | none => exact h1
                | some acc => exact h1

theorem closeRegister_sessions_sublist (s : Store) (tok : Option String)
    (now : Nat) (d : Bool) :
    ((closeRegister s tok now d).2).sessions.Sublist s.sessions := by
  unfold closeRegister
  have h1 := requireAuth_sessions_sublist s tok now
  cases hra : requireAuth s tok now with
  | mk res s1 =>
      rw [hra] at h1
      cases res with
      | noToken => exact h1
      | invalidSession => exact h1
      | accountNotFound => exact h1
      | ok sess acc sel =>
          dsimp only
          cases sel with
          | none => exact h1
          | some u =>
              dsimp only
              by_cases hcfg :
                  ¬ (strTruthy acc.telegramChatId = true ∧
                     strTruthy acc.telegramBotToken = true)
              · rw [if_pos hcfg]
                exact h1
              · rw [if_neg hcfg]
                by_cases hd : ¬ d = true
                · rw [if_pos hd]
                  exact h1
                · rw [if_neg hd]
                  cases tok with
                  | none => exact h1
                  | some t =>
                      dsimp only [deleteSession]
                      exact List.Sublist.trans (mapDelete_sublist _ _) h1

theorem deleteAccount_sessions_sublist (s : Store) (id : Nat) :
    ((deleteAccount s id).2).sessions.Sublist s.sessions := by
  unfold deleteAccount
  cases getAccount s id with
  | none => exact List.filter_sublist _
  | some a =>
      dsimp only
      by_cases hm : a.isMaster = true
      · rw [if_pos hm]
      · rw [if_neg hm]
        exact List.filter_sublist _

theorem sessionInvariant_of_sublist {s s2 : Store}
    (h : s2.sessions.Sublist s.sessions) (hinv : sessionInvariant s) :
    sessionInvariant s2 := by
  obtain ⟨hnd, hcnt⟩ := hinv
  refine ⟨keysNodup_of_sublist h hnd, fun aid => ?_⟩
  exact le_trans (count_le_of_sublist h aid) (hcnt aid)

theorem login_sessionInvariant (s : Store) (email pw tok : String) (now : Nat)
    (hinv : sessionInvariant s) :
    sessionInvariant (login s email pw tok now).2 := by
  obtain ⟨hnd, hcnt⟩ := hinv
  unfold login
  cases getAccountByEmail s email with
  | none => exact ⟨hnd, hcnt⟩
  | some a =>
      dsimp only
      by_cases hpw : ¬ a.password = pw
      · rw [if_pos hpw]
        exact ⟨hnd, hcnt⟩
      · rw [if_neg hpw]
        by_cases hact : ¬ a.isActive = true
        · rw [if_pos hact]
          exact ⟨hnd, hcnt⟩
        · rw [if_neg hact]
          dsimp only [createSession, deleteAccountSessions]
          have hnd1 : keysNodup (s.sessions.filter
              (fun p => ¬ p.2.accountId = a.id)) :=
            keysNodup_of_sublist (List.filter_sublist _) hnd
          constructor
          · exact keysNodup_mapSet _ _ _ hnd1
          · intro aid
            apply count_login_sessions _ _ _ _ hnd1
            · intro p hp
              have := (List.mem_filter.mp hp).2
              simpa using this
            · exact le_trans
                (count_le_of_sublist (List.filter_sublist _) aid) (hcnt aid)

theorem selectUser_sessionInvariant (s : Store) (tok : String) (uid : Nat)
    (hinv : sessionInvariant s) :
    sessionInvariant (selectUser s tok uid).2 := by
  obtain ⟨hnd, hcnt⟩ := hinv
  unfold selectUser
  cases hget : mapGet s.sessions tok with
  | none => exact ⟨hnd, hcnt⟩
  | some sess =>
      dsimp only
      cases getUser s uid with
      | none => exact ⟨hnd, hcnt⟩
      | some u =>
          dsimp only
          by_cases hacc : u.accountId = sess.accountId
          · rw [if_pos hacc]
            constructor
            · exact keysNodup_mapSet _ _ _ hnd
            · intro aid
              have hc := count_mapSet_same_account
                (v := { sess with selectedUserId := some uid }) hnd hget rfl aid
              exact le_trans (le_of_eq hc) (hcnt aid)
          · rw [if_neg hacc]
            exact ⟨hnd, hcnt⟩

/-- Preservation of the single-session-per-account invariant by every
API request. -/
theorem apiStep_sessionInvariant {s s2 : Store} (h : ApiStep s s2)
    (hinv : sessionInvariant s) : sessionInvariant s2 := by
  cases h with
  | stepLogin email pw tok now =>
      exact login_sessionInvariant s email pw tok now hinv
  | stepAuth tok now =>
      exact sessionInvariant_of_sublist (requireAuth_sessions_sublist s tok now) hinv
  | stepLogout tok =>
      exact sessionInvariant_of_sublist (mapDelete_sublist _ _) hinv
  | stepSelectUser sess uid =>
      have h2 := selectUser_sessionInvariant s sess.token uid hinv
      unfold selectUserRoute
      cases hsel : selectUser s sess.token uid with
      | mk res s1 =>
          rw [hsel] at h2
          cases res with
          | none => exact h2
          | some w => exact h2
  | stepCloseRegister tok now d =>
      exact sessionInvariant_of_sublist
        (closeRegister_sessions_sublist s tok now d) hinv
  | stepDeleteAccount id =>
      exact sessionInvariant_of_sublist
        (deleteAccount_sessions_sublist s id) hinv
  | stepSessionsOther s2 heq =>
      obtain ⟨hnd, hcnt⟩ := hinv
      constructor
      · unfold keysNodup at hnd ⊢
        rw [heq]
        exact hnd
      · intro aid
        unfold sessionsFor at hcnt ⊢
        rw [heq]
        exact hcnt aid

theorem round2_eq_self {x : ℚ} (h : ∃ z : ℤ, x * 100 = z) : round2 x = x := by
  obtain ⟨z, hz⟩ := h
  unfold round2
  have h100 : (100 : ℚ) * x = z := by
    rw [mul_comm]
    exact hz
  rw [h100]
  have hfloor : ⌊(z : ℚ) + 1/2⌋ = z := by
    rw [Int.floor_int_add]
    norm_num
  rw [hfloor]
  have hx : x = (z : ℚ) / 100 := by
    field_simp at hz ⊢
    linarith [hz]
  rw [hx]

theorem computeTotalAux_ok (s : Store) (items : List CartItem) (a : ℚ)
    (hall : ∀ it ∈ items, (getProduct s it.productId).isSome = true) :
    computeTotalAux s a items = .ok (a + (items.map (linePrice s)).sum) := by
  induction items generalizing a with
  | nil => simp [computeTotalAux]
  | cons it rest ih =>
      have hhead := hall it (List.mem_cons_self _ _)
      cases hp : getProduct s it.productId with
      | none =>
          rw [hp] at hhead
          simp at hhead
      | some p =>
          have hall2 : ∀ it2 ∈ rest, (getProduct s it2.productId).isSome = true :=
            fun it2 h2 => hall it2 (List.mem_cons_of_mem _ h2)
          rw [computeTotalAux, hp]
          dsimp only
          rw [ih _ hall2]
          have hl : linePrice s it = p.price * it.quantity := by
            simp [linePrice, hp]
          rw [List.map_cons, List.sum_cons, hl, add_assoc]

theorem computeTotalAux_error (s : Store) (items : List CartItem)
    (hmiss : ∃ it ∈ items, getProduct s it.productId = none) :
    ∀ a : ℚ, ∃ pid, computeTotalAux s a items = .error pid ∧
      getProduct s pid = none := by
  induction items with
  | nil => simp at hmiss
  | cons it rest ih =>
      intro a
      cases hp : getProduct s it.productId with
      | none =>
          refine ⟨it.productId, ?_, hp⟩
          rw [computeTotalAux, hp]
      | some p =>
          have hmiss2 : ∃ it2 ∈ rest, getProduct s it2.productId = none := by
            rcases hmiss with ⟨it2, hmem, hnone⟩
            rcases List.mem_cons.mp hmem with he | hm
            · rw [he, hp] at hnone
              cases hnone
            · exact ⟨it2, hm, hnone⟩
          obtain ⟨pid, he, hn⟩ := ih hmiss2 (a + p.price * it.quantity)
          refine ⟨pid, ?_, hn⟩
          rw [computeTotalAux, hp]
          exact he

theorem mapSet_fresh {α : Type} (m : List (Nat × α)) (c : Nat) (v : α)
    (h : ∀ p ∈ m, p.1 < c) : mapSet m c v = m ++ [(c, v)] := by
  unfold mapSet
  rw [if_neg]
  intro hc
  rw [List.any_eq_true] at hc
  obtain ⟨p, hp, he⟩ := hc
  have := h p hp
  simp only [decide_eq_true_eq] at he
  omega

theorem createItems_products (txnId : Nat) (items : List CartItem)
    (s : Store) : (createItems txnId s items).products = s.products := by
  induction items generalizing s with
  | nil => rfl
  | cons it rest ih =>
      rw [createItems]
      cases getProduct s it.productId with
      | none => exact ih s
      | some p => exact ih _

theorem checkout_products_unchanged (s : Store) (sess : Session)
    (acc : Account) (items : List CartItem) (pm : PaymentMethod) :
    ((checkout s sess acc items pm).2).products = s.products := by
  unfold checkout
  by_cases hsel : sess.selectedUserId.getD 0 = 0
  · rw [if_pos hsel]
  · rw [if_neg hsel]
    by_cases hzod : ¬ zodItemsOk items = true
    · rw [if_pos hzod]
    · rw [if_neg hzod]
      cases computeTotal s items with
      | error pid => rfl
      | ok total =>
          dsimp only
          exact createItems_products _ _ _

theorem getTransactionItems_createTxnItem (s : Store) (txnId pid : Nat)
    (q up tp : ℚ)
    (hfresh : ∀ p ∈ s.transactionItems, p.1 < s.currentTransactionItemId) :
    getTransactionItems (createTransactionItem s txnId pid q up tp).2 txnId =
      getTransactionItems s txnId ++
        [{ id := s.currentTransactionItemId, transactionId := txnId,
           productId := pid, quantity := q, unitPrice := up,
           totalPrice := tp }] := by
  unfold createTransactionItem getTransactionItems
  dsimp only
  rw [mapSet_fresh _ _ _ hfresh, List.map_append, List.filter_append]
  simp

theorem createItems_fresh (s : Store) (txnId pid : Nat) (q up tp : ℚ)
    (hfresh : ∀ p ∈ s.transactionItems, p.1 < s.currentTransactionItemId) :
    ∀ p ∈ ((createTransactionItem s txnId pid q up tp).2).transactionItems,
      p.1 < ((createTransactionItem s txnId pid q up tp).2).currentTransactionItemId := by
  intro p hp
  unfold createTransactionItem at hp ⊢
  dsimp only at hp ⊢
  rw [mapSet_fresh _ _ _ hfresh] at hp
  rcases List.mem_append.mp hp with hold | hnew
  · have := hfresh p hold
    omega
  · simp only [List.mem_singleton] at hnew
    rw [hnew]
    omega

theorem createItems_sums (txnId : Nat) (items : List CartItem) (s : Store)
    (hfresh : ∀ p ∈ s.transactionItems, p.1 < s.currentTransactionItemId)
    (hall : ∀ it ∈ items, (getProduct s it.productId).isSome = true) :
    ((getTransactionItems (createItems txnId s items) txnId).map
        (fun it => it.totalPrice)).sum =
      ((getTransactionItems s txnId).map (fun it => it.totalPrice)).sum +
        (items.map (fun it => round2 (linePrice s it))).sum ∧
    ((getTransactionItems (createItems txnId s items) txnId).map
        (fun it => it.unitPrice * it.quantity)).sum =
      ((getTransactionItems s txnId).map
        (fun it => it.unitPrice * it.quantity)).sum +
        (items.map (linePrice s)).sum := by
  induction items generalizing s with
  | nil => simp [createItems]
  | cons it rest ih =>
      have hhead := hall it (List.mem_cons_self _ _)
      cases hp : getProduct s it.productId with
      | none =>
          rw [hp] at hhead
          simp at hhead
      | some p =>
          rw [createItems, hp]
          dsimp only
          have hfresh1 := createItems_fresh s txnId it.productId it.quantity
            p.price (round2 (p.price * it.quantity)) hfresh
          have hall1 : ∀ it2 ∈ rest,
              (getProduct ((createTransactionItem s txnId it.productId
                it.quantity p.price (round2 (p.price * it.quantity))).2)
                it2.productId).isSome = true :=
            fun it2 h2 => hall it2 (List.mem_cons_of_mem _ h2)
          obtain ⟨ih1, ih2⟩ := ih _ hfresh1 hall1
          rw [ih1, ih2]
          rw [getTransactionItems_createTxnItem s txnId _ _ _ _ hfresh]
          have hl : linePrice s it = p.price * it.quantity := by
            simp [linePrice, hp]
          have hlp : linePrice ((createTransactionItem s txnId it.productId
              it.quantity p.price (round2 (p.price * it.quantity))).2) =
              linePrice s := rfl
          constructor
          · rw [List.map_append, List.sum_append]
            simp only [hlp, List.map_cons, List.sum_cons, List.map_nil,
              List.sum_nil, hl]
            ring
          · rw [List.map_append, List.sum_append]
            simp only [hlp, List.map_cons, List.sum_cons, List.map_nil,
              List.sum_nil, hl]
            ring

/-- C8: a login attempt whose email matches an account and whose password
is correct, but whose account has `isActive = false`, is rejected with
the AccountDisabled error (HTTP 401 "Compte désactivé"), and the store —
in particular its set of sessions — is returned unchanged: no session is
created and none is deleted. -/
theorem login_disabled_rejected (s : Store) (email pw newTok : String)
    (now : Nat) (a : Account) (hfind : getAccountByEmail s email = some a)
    (hpw : a.password = pw) (hact : a.isActive = false) :
    login s email pw newTok now = (.accountDisabled, s) := by
  unfold login
  rw [hfind]
  dsimp only
  rw [if_neg (by simp [hpw]), if_pos (by simp [hact])]

/-- Witness for C8: disabling the seeded demo account via
`toggleAccountStatus` and then logging in with its correct credentials
yields AccountDisabled and leaves the store untouched. -/
theorem login_disabled_rejected_witness :
    login (toggleAccountStatus initialStore 1).2 "demo@flouz.com" "demo123"
        "tok9" 77 =
      (.accountDisabled, (toggleAccountStatus initialStore 1).2) :=
  login_disabled_rejected (toggleAccountStatus initialStore 1).2
    "demo@flouz.com" "demo123" "tok9" 77
    { demoAccount with isActive := false } (by decide) (by decide) (by decide)

/-- C6 counterexample: in the seeded store, category 1 ("Boissons") is
referenced by three products, yet `DELETE /api/categories/1` succeeds
and removes the category — `MemStorage.deleteCategory` never consults
the products, so deletion is not rejected while products reference the
category. -/
theorem deleteCategory_in_use_not_rejected :
    getProductsByCategory initialStore 1 ≠ [] ∧
    (deleteCategoryRoute initialStore 1).1 = .ok ∧
    mapGet ((deleteCategoryRoute initialStore 1).2).categories 1 = none := by
  refine ⟨by decide, by decide, by decide⟩

/-- C6 amended: `deleteCategory` removes the category and the route
reports success whenever the id is present, irrespective of referencing
products; the route answers 400 ("Impossible de supprimer cette
catégorie") only when the id is absent from the categories map. -/
theorem deleteCategoryRoute_spec (s : Store) (id : Nat) :
    (mapGet s.categories id = none →
      (deleteCategoryRoute s id).1 = .cannotDelete) ∧
    (∀ c, mapGet s.categories id = some c →
      deleteCategoryRoute s id =
        (.ok, { s with categories := mapDelete s.categories id }) ∧
      mapGet (mapDelete s.categories id) id = none) := by
  constructor
  · intro h
    have hany : s.categories.any (fun p => p.1 = id) = false :=
      (mapGet_eq_none_iff_any _ _).mp h
    unfold deleteCategoryRoute deleteCategory
    rw [hany]
  · intro c h
    have hany : s.categories.any (fun p => p.1 = id) = true :=
      mapGet_eq_some_any h
    constructor
    · unfold deleteCategoryRoute deleteCategory
      rw [hany]
    · exact mapGet_mapDelete_self _ _

/-- Witness for C6 amended: deleting the absent category 99 of the seeded
store is refused, deleting the present category 4 succeeds and removes
it. -/
theorem deleteCategoryRoute_spec_witness :
    (deleteCategoryRoute initialStore 99).1 = .cannotDelete ∧
    (deleteCategoryRoute initialStore 4).1 = .ok ∧
    mapGet (mapDelete initialStore.categories 4) 4 = none := by
  refine ⟨(deleteCategoryRoute_spec initialStore 99).1 (by decide), ?_, ?_⟩
  · have h := ((deleteCategoryRoute_spec initialStore 4).2
      { id := 4, name := "Desserts", color := "#F59E0B" } (by decide)).1
    rw [h]
  · exact ((deleteCategoryRoute_spec initialStore 4).2
      { id := 4, name := "Desserts", color := "#F59E0B" } (by decide)).2

unseal Rat.mul Rat.add Rat.sub Rat.inv Rat.ofScientific in
/-- C2: the checkout route never reads or writes any product's stock.
The first conjunct shows the products map — hence every stock value — is
unchanged by every checkout. The remaining conjuncts evaluate the failing
input: product 6 ("Salade César") has tracked stock 10, a checkout for
quantity 20 (more than the stock) nevertheless succeeds, creates the
transaction with total 158.00, and leaves the stock at 10 instead of
rejecting the request or decrementing the stock. -/
theorem checkout_ignores_stock :
    (∀ s sess acc items pm,
      ((checkout s sess acc items pm).2).products = s.products) ∧
    ((getProduct initialStore 6).map (fun p => p.stock) = some (some 10)) ∧
    ((checkout initialStore posSession demoAccount
        [{ productId := 6, quantity := 20 }] .cash).1 =
      .ok { id := 1, accountId := 1, userId := 1, total := 158,
            paymentMethod := .cash }) ∧
    ((getProduct (checkout initialStore posSession demoAccount
        [{ productId := 6, quantity := 20 }] .cash).2 6).map
          (fun p => p.stock) = some (some 10)) := by
  refine ⟨checkout_products_unchanged, by decide, by decide, by decide⟩

unseal Rat.mul Rat.add Rat.sub Rat.inv Rat.ofScientific in
/-- C3 counterexample: with product 1 marked `isActive = false`, a
checkout for it is not rejected — the route performs no `isActive`
check — and succeeds with total 5.00 for two units at 2.50. -/
theorem checkout_sells_inactive_product :
    ((getProduct inactiveStore 1).map (fun p => p.isActive) = some false) ∧
    (checkout inactiveStore posSession demoAccount
        [{ productId := 1, quantity := 2 }] .cash).1 =
      .ok { id := 1, accountId := 1, userId := 1, total := 5,
            paymentMethod := .cash } := by
  refine ⟨by decide, by decide⟩

/-- C3 amended: a checkout request containing a line whose product is
missing from the store fails with 400 (`Produit ... introuvable`, the id
of the first missing product) before any mutation — the store is
returned unchanged, so no transaction and no line item is created. The
`isActive` flag is never consulted, so inactive products are sold
normally (see the counterexample). -/
theorem checkout_missing_product_rejected (s : Store) (sess : Session)
    (acc : Account) (items : List CartItem) (pm : PaymentMethod)
    (hsel : ¬ sess.selectedUserId.getD 0 = 0)
    (hzod : zodItemsOk items = true)
    (hmiss : ∃ it ∈ items, getProduct s it.productId = none) :
    ∃ pid, checkout s sess acc items pm = (.productNotFound pid, s) ∧
      getProduct s pid = none := by
  obtain ⟨pid, herr, hnone⟩ := computeTotalAux_error s items hmiss 0
  refine ⟨pid, ?_, hnone⟩
  unfold checkout
  rw [if_neg hsel, if_neg (not_not_intro hzod)]
  unfold computeTotal
  rw [herr]

/-- Witness for C3 amended: a checkout naming the absent product 99 is
rejected with its id and the seeded store is unchanged. -/
theorem checkout_missing_product_rejected_witness :
    ∃ pid, checkout initialStore posSession demoAccount
        [{ productId := 99, quantity := 1 }] .cash =
        (.productNotFound pid, initialStore) ∧
      getProduct initialStore pid = none :=
  checkout_missing_product_rejected initialStore posSession demoAccount
    [{ productId := 99, quantity := 1 }] .cash (by decide) (by decide)
    ⟨{ productId := 99, quantity := 1 }, by decide, by decide⟩

/-- C9: `selectUser` yields nothing — and the store, in particular the
session, is unchanged, the route answering 400 "Utilisateur invalide" —
whenever the requested employee does not exist or belongs to a different
account than the session; when it succeeds, the session's
`selectedUserId` is set to an employee owned by the session's account. -/
theorem selectEmployee_spec (s : Store) (tok : String) (uid : Nat) :
    (∀ sess0, mapGet s.sessions tok = some sess0 →
      getUser s uid = none → selectUser s tok uid = (none, s)) ∧
    (∀ sess0 u, mapGet s.sessions tok = some sess0 →
      getUser s uid = some u → ¬ u.accountId = sess0.accountId →
      selectUser s tok uid = (none, s)) ∧
    (∀ sess0 u, mapGet s.sessions tok = some sess0 →
      getUser s uid = some u → u.accountId = sess0.accountId →
      selectUser s tok uid =
        (some (withSelected sess0 uid),
          { s with sessions := mapSet s.sessions tok (withSelected sess0 uid) }) ∧
      mapGet (mapSet s.sessions tok (withSelected sess0 uid)) tok =
        some (withSelected sess0 uid) ∧
      ∃ u2, getUser s uid = some u2 ∧ u2.accountId = sess0.accountId) ∧
    (∀ sess, selectUser s sess.token uid = (none, s) →
      selectUserRoute s sess uid = (.invalidUser, s)) := by
  refine ⟨?_, ?_, ?_, ?_⟩
  · intro sess0 hget huser
    unfold selectUser
    rw [hget]
    dsimp only
    rw [huser]
  · intro sess0 u hget huser hacc
    unfold selectUser
    rw [hget]
    dsimp only
    rw [huser]
    dsimp only
    rw [if_neg hacc]
  · intro sess0 u hget huser hacc
    refine ⟨?_, mapGet_mapSet_self _ _ _, u, huser, hacc⟩
    unfold selectUser
    rw [hget]
    dsimp only
    rw [huser]
    dsimp only
    rw [if_pos hacc]
    rfl
  · intro sess hfail
    unfold selectUserRoute
    rw [hfail]

/-- Witness for C9: in a store holding a session for the demo account,
selecting employee 2 (owned by the master account) fails with the store
unchanged, and selecting employee 1 (owned by the demo account) succeeds
and records an employee of the session's account. -/
theorem selectEmployee_spec_witness :
    selectUser telegramStore "tok" 2 = (none, telegramStore) ∧
    (selectUser telegramStore "tok" 1).1 =
      some (withSelected posSession 1) := by
  constructor
  · exact (selectEmployee_spec telegramStore "tok" 2).2.1 posSession
      { id := 2, accountId := 2, firstName := "Admin", lastName := "Master",
        isActive := true } (by decide) (by decide) (by decide)
  · have h := ((selectEmployee_spec telegramStore "tok" 1).2.2.1 posSession
      { id := 1, accountId := 1, firstName := "Demo", lastName := "User",
        isActive := true } (by decide) (by decide) (by decide)).1
    rw [h]

/-- C5: `requireAuth` (the HTTP face of `resolveToken`) answers 401 when
the bearer token is absent (or empty, which JavaScript treats as falsy),
when no session is stored under it, and when the stored session has
`expiresAt ≤ now` — in which case the expired session is deleted from
the store by the lookup itself (lazy deletion); with a live session
whose owning account exists, it returns that session and account with
the store untouched. -/
theorem resolveToken_spec (s : Store) (t : String) (now : Nat)
    (ht : ¬ t = "") :
    (requireAuth s none now = (.noToken, s)) ∧
    (requireAuth s (some "") now = (.noToken, s)) ∧
    (mapGet s.sessions t = none →
      requireAuth s (some t) now = (.invalidSession, s)) ∧
    (∀ sess, mapGet s.sessions t = some sess → sess.expiresAt ≤ now →
      requireAuth s (some t) now = (.invalidSession, deleteSession s t) ∧
      mapGet (deleteSession s t).sessions t = none) ∧
    (∀ sess a, mapGet s.sessions t = some sess → now < sess.expiresAt →
      getAccount s sess.accountId = some a →
      ∃ sel, requireAuth s (some t) now = (.ok sess a sel, s)) := by
  refine ⟨rfl, rfl, ?_, ?_, ?_⟩
  · intro hget
    unfold requireAuth getSession
    dsimp only
    rw [if_neg ht, hget]
  · intro sess hget hexp
    constructor
    · unfold requireAuth getSession
      dsimp only
      rw [if_neg ht, hget]
      dsimp only
      rw [if_neg (Nat.not_lt.mpr hexp)]
      rfl
    · exact mapGet_mapDelete_self _ _
  · intro sess a hget hlive hacc
    refine ⟨(match sess.selectedUserId with
      | some uid => if uid = 0 then none else getUser s uid
      | none => none), ?_⟩
    unfold requireAuth getSession
    dsimp only
    rw [if_neg ht, hget]
    dsimp only
    rw [if_pos hlive]
    dsimp only
    rw [hacc]

/-- Witness for C5: in the seeded store (no sessions) an unknown token is
rejected with the store unchanged; in a store with a live session the
token resolves to the session and the demo account; a session expired at
lookup time is rejected and deleted by the lookup. -/
theorem resolveToken_spec_witness :
    requireAuth initialStore (some "zzz") 0 = (.invalidSession, initialStore) ∧
    (∃ sel, requireAuth telegramStore (some "tok") 7 =
      (.ok posSession telegramAccount sel, telegramStore)) ∧
    (requireAuth telegramStore (some "tok") 604800000 =
      (.invalidSession, deleteSession telegramStore "tok") ∧
     mapGet (deleteSession telegramStore "tok").sessions "tok" = none) := by
  refine ⟨?_, ?_, ?_⟩
  · exact (resolveToken_spec initialStore "zzz" 0 (by decide)).2.2.1 (by decide)
  · exact (resolveToken_spec telegramStore "tok" 7 (by decide)).2.2.2.2
      posSession _ (by decide) (by decide) (by decide)
  · exact (resolveToken_spec telegramStore "tok" 604800000 (by decide)).2.2.2.1
      posSession (by decide) (by decide)

/-- C7: given an authenticated request with a selected employee, the
close-register route deletes the caller's session only when the Telegram
dispatch succeeds: with an incomplete Telegram configuration it answers
400 (config missing) and the store — hence the session — is unchanged;
with a failing dispatch it answers 500 and the store is unchanged; with
a successful dispatch it answers 200 and the session is deleted. -/
theorem closeRegister_spec (s : Store) (t : String) (now : Nat)
    (sess : Session) (acc : Account) (u : User)
    (hauth : requireAuth s (some t) now = (.ok sess acc (some u), s)) :
    (¬ (strTruthy acc.telegramChatId = true ∧
        strTruthy acc.telegramBotToken = true) →
      ∀ d, closeRegister s (some t) now d = (.telegramConfigMissing, s)) ∧
    ((strTruthy acc.telegramChatId = true ∧
        strTruthy acc.telegramBotToken = true) →
      closeRegister s (some t) now false = (.dispatchFailed, s) ∧
      (closeRegister s (some t) now true = (.ok, deleteSession s t) ∧
        mapGet (deleteSession s t).sessions t = none)) := by
  constructor
  · intro hcfg d
    unfold closeRegister
    rw [hauth]
    dsimp only
    rw [if_pos hcfg]
  · intro hcfg
    refine ⟨?_, ?_, mapGet_mapDelete_self _ _⟩
    · unfold closeRegister
      rw [hauth]
      dsimp only
      rw [if_neg (not_not_intro hcfg), if_pos (by decide)]
    · unfold closeRegister
      rw [hauth]
      dsimp only
      rw [if_neg (not_not_intro hcfg), if_neg (by decide)]

unseal Rat.mul Rat.add Rat.sub Rat.inv Rat.ofScientific in
/-- Witness for C7: in the fixture store with a configured Telegram
channel and a live session, a failed dispatch leaves the session intact
with a 500, a successful dispatch deletes it. -/
theorem closeRegister_spec_witness :
    closeRegister telegramStore (some "tok") 7 false =
      (.dispatchFailed, telegramStore) ∧
    closeRegister telegramStore (some "tok") 7 true =
      (.ok, deleteSession telegramStore "tok") ∧
    mapGet (deleteSession telegramStore "tok").sessions "tok" = none := by
  have h := closeRegister_spec telegramStore "tok" 7 posSession
    telegramAccount demoUser (by decide)
  exact ⟨(h.2 (by decide)).1, (h.2 (by decide)).2.1, (h.2 (by decide)).2.2⟩

/-- C10: `deleteAccount` on a master account returns false and leaves
the store entirely unchanged; on an existing non-master account it
returns true, removes the account, removes exactly the employees and
sessions belonging to it (all others are kept), and afterwards any token
that belonged to one of its sessions fails `requireAuth` with 401. -/
theorem deleteAccount_spec (s : Store) (id : Nat) (a : Account)
    (hget : getAccount s id = some a) :
    (a.isMaster = true → deleteAccount s id = (false, s)) ∧
    (a.isMaster = false →
      (deleteAccount s id).1 = true ∧
      getAccount (deleteAccount s id).2 id = none ∧
      (∀ p ∈ ((deleteAccount s id).2).users, ¬ p.2.accountId = id) ∧
      (∀ p ∈ s.users, ¬ p.2.accountId = id → p ∈ ((deleteAccount s id).2).users) ∧
      (∀ p ∈ ((deleteAccount s id).2).sessions, ¬ p.2.accountId = id) ∧
      (∀ p ∈ s.sessions, ¬ p.2.accountId = id →
        p ∈ ((deleteAccount s id).2).sessions) ∧
      (keysNodup s.sessions →
        ∀ tokOld sessOld, mapGet s.sessions tokOld = some sessOld →
          sessOld.accountId = id → ¬ tokOld = "" →
          ∀ now2, requireAuth ((deleteAccount s id).2) (some tokOld) now2 =
            (.invalidSession, (deleteAccount s id).2))) := by
  constructor
  · intro hm
    unfold deleteAccount
    rw [hget]
    dsimp only
    rw [if_pos hm]
  · intro hm
    have hstep : deleteAccount s id =
        (s.accounts.any (fun p => p.1 = id),
          { s with
              users := s.users.filter (fun p => ¬ p.2.accountId = id)
              sessions := s.sessions.filter (fun p => ¬ p.2.accountId = id)
              accounts := mapDelete s.accounts id }) := by
      unfold deleteAccount
      rw [hget]
      dsimp only
      rw [if_neg (by simp [hm])]
    rw [hstep]
    refine ⟨mapGet_eq_some_any hget, mapGet_mapDelete_self _ _, ?_, ?_, ?_, ?_, ?_⟩
    · intro p hp
      have := (List.mem_filter.mp hp).2
      simpa using this
    · intro p hp hpacc
      exact List.mem_filter.mpr ⟨hp, by simpa using hpacc⟩
    · intro p hp
      have := (List.mem_filter.mp hp).2
      simpa using this
    · intro p hp hpacc
      exact List.mem_filter.mpr ⟨hp, by simpa using hpacc⟩
    · intro hnd tokOld sessOld hgetTok haccTok htne now2
      have hnone : mapGet (s.sessions.filter
          (fun p => ¬ p.2.accountId = id)) tokOld = none := by
        rw [mapGet_eq_none_iff_any, List.any_eq_false]
        intro q hq
        obtain ⟨hqm, hqp⟩ := List.mem_filter.mp hq
        simp only [decide_eq_true_eq]
        intro hqk
        have hq2 : (tokOld, q.2) ∈ s.sessions := by
          have hqe : q = (tokOld, q.2) := by
            cases q
            simp_all
          rw [← hqe]
          exact hqm
        have := mem_mapGet_of_keysNodup hnd hq2
        rw [hgetTok] at this
        have hqs : q.2 = sessOld := by
          simpa using this.symm
        rw [hqs] at hqp
        rw [haccTok] at hqp
        simp at hqp
      unfold requireAuth getSession
      dsimp only
      rw [if_neg htne, hnone]

/-- Witness for C10: deleting the seeded master account (id 2) is
refused with the store unchanged; deleting the demo account (id 1) of
the fixture store (which holds a session of that account) reports
success, removes the account, and the session's token then fails
authentication. -/
theorem deleteAccount_spec_witness :
    deleteAccount initialStore 2 = (false, initialStore) ∧
    (deleteAccount telegramStore 1).1 = true ∧
    getAccount (deleteAccount telegramStore 1).2 1 = none ∧
    requireAuth ((deleteAccount telegramStore 1).2) (some "tok") 7 =
      (.invalidSession, (deleteAccount telegramStore 1).2) := by
  refine ⟨?_, ?_, ?_, ?_⟩
  · exact (deleteAccount_spec initialStore 2
      { id := 2, email := "flouz@mail.com", password := "rootsesmort",
        isDemo := false, isMaster := true, isActive := true,
        telegramChatId := none, telegramBotToken := none }
      (by decide)).1 (by decide)
  · exact ((deleteAccount_spec telegramStore 1 telegramAccount
      (by decide)).2 (by decide)).1
  · exact ((deleteAccount_spec telegramStore 1 telegramAccount
      (by decide)).2 (by decide)).2.1
  · exact ((deleteAccount_spec telegramStore 1 telegramAccount
      (by decide)).2 (by decide)).2.2.2.2.2.2
      (by unfold keysNodup; decide) "tok" posSession
      (by decide) (by decide) (by decide) 7

theorem mapGet_filter_account_none {m : List (String × Session)}
    {tokOld : String} {sessOld : Session} {aid : Nat} (hnd : keysNodup m)
    (hget : mapGet m tokOld = some sessOld) (hacc : sessOld.accountId = aid) :
    mapGet (m.filter (fun p => ¬ p.2.accountId = aid)) tokOld = none := by
  rw [mapGet_eq_none_iff_any, List.any_eq_false]
  intro q hq
  obtain ⟨hqm, hqp⟩ := List.mem_filter.mp hq
  simp only [decide_eq_true_eq]
  intro hqk
  have hq2 : (tokOld, q.2) ∈ m := by
    have hqe : q = (tokOld, q.2) := by
      cases q
      simp_all
    rw [← hqe]
    exact hqm
  have hq3 := mem_mapGet_of_keysNodup hnd hq2
  rw [hget] at hq3
  have hqs : q.2 = sessOld := by
    simpa using hq3.symm
  rw [hqs, hacc] at hqp
  simp at hqp

/-- C4: a successful login deletes every session previously issued for
the logged-in account — afterwards any previously stored token of that
account (other than the fresh one) is absent from the sessions map and
fails `getSession` at every time — and login leaves exactly one session
for that account; moreover the single-session-per-account invariant
(stated together with key uniqueness of the sessions map, intrinsic to
the JavaScript `Map`) holds in the seeded store and is preserved by
every API request, so at most one live session per account exists at any
time. -/
theorem login_single_session :
    (∀ s email pw newTok now aid s2 tokOld sessOld,
      login s email pw newTok now = (.ok newTok aid, s2) →
      keysNodup s.sessions →
      mapGet s.sessions tokOld = some sessOld →
      sessOld.accountId = aid →
      ¬ tokOld = newTok →
      mapGet s2.sessions tokOld = none ∧
        ∀ now2, (getSession s2 tokOld now2).1 = none) ∧
    (∀ s email pw newTok now aid s2,
      login s email pw newTok now = (.ok newTok aid, s2) →
      ∀ tok2 sess2, mapGet s2.sessions tok2 = some sess2 →
        sess2.accountId = aid → tok2 = newTok) ∧
    (∀ s s2, ApiStep s s2 → sessionInvariant s → sessionInvariant s2) ∧
    sessionInvariant initialStore := by
  have hsucc : ∀ s email pw newTok now aid s2,
      login s email pw newTok now = (.ok newTok aid, s2) →
      ∃ a, getAccountByEmail s email = some a ∧ a.id = aid ∧
        s2.sessions = mapSet
          (s.sessions.filter (fun p => ¬ p.2.accountId = aid)) newTok
          { id := s.currentSessionId, accountId := aid,
            selectedUserId := none, token := newTok,
            expiresAt := now + 7 * 24 * 60 * 60 * 1000 } := by
    intro s email pw newTok now aid s2 h
    unfold login at h
    cases hfind : getAccountByEmail s email with
    | none =>
        rw [hfind] at h
        cases h
    | some a =>
        rw [hfind] at h
        dsimp only at h
        by_cases hpw : ¬ a.password = pw
        · rw [if_pos hpw] at h
          cases h
        · rw [if_neg hpw] at h
          by_cases hact : ¬ a.isActive = true
          · rw [if_pos hact] at h
            cases h
          · rw [if_neg hact] at h
            dsimp only [createSession, deleteAccountSessions] at h
            have hres := congrArg Prod.fst h
            have hstore := congrArg Prod.snd h
            dsimp only at hres hstore
            injection hres with h1 h2
            subst h2
            subst hstore
            exact ⟨a, rfl, rfl, rfl⟩
  refine ⟨?_, ?_, fun s s2 h hinv => apiStep_sessionInvariant h hinv, ?_⟩
  · intro s email pw newTok now aid s2 tokOld sessOld h hnd hget hacc hne
    obtain ⟨a, hfind, haid, hsess⟩ := hsucc s email pw newTok now aid s2 h
    have h1 : mapGet s2.sessions tokOld = none := by
      rw [hsess, mapGet_mapSet_ne _ _ _ _ (fun he => hne he.symm)]
      exact mapGet_filter_account_none hnd hget hacc
    refine ⟨h1, fun now2 => ?_⟩
    unfold getSession
    rw [h1]
  · intro s email pw newTok now aid s2 h tok2 sess2 hget2 hacc2
    obtain ⟨a, hfind, haid, hsess⟩ := hsucc s email pw newTok now aid s2 h
    by_cases he : tok2 = newTok
    · exact he
    · exfalso
      rw [hsess, mapGet_mapSet_ne _ _ _ _ (fun h2 => he h2.symm)] at hget2
      have := (List.mem_filter.mp (mapGet_mem hget2)).2
      rw [hacc2] at this
      simp at this
  · constructor
    · unfold keysNodup
      decide
    · intro aid
      unfold sessionsFor
      rw [show initialStore.sessions = [] from rfl]
      simp

/-- Witness for C4: logging the demo account in twice (tokens "tok1"
then "tok2") leaves "tok1" absent from the sessions map, so a request
bearing it fails. -/
theorem login_single_session_witness :
    mapGet ((login (login initialStore "demo@flouz.com" "demo123" "tok1" 0).2
        "demo@flouz.com" "demo123" "tok2" 0).2).sessions "tok1" = none := by
  have e1 : (login (login initialStore "demo@flouz.com" "demo123" "tok1" 0).2
      "demo@flouz.com" "demo123" "tok2" 0).1 = .ok "tok2" 1 := by decide
  have h := login_single_session.1
    (login initialStore "demo@flouz.com" "demo123" "tok1" 0).2
    "demo@flouz.com" "demo123" "tok2" 0 1
    (login (login initialStore "demo@flouz.com" "demo123" "tok1" 0).2
      "demo@flouz.com" "demo123" "tok2" 0).2
    "tok1"
    { id := 1, accountId := 1, selectedUserId := none, token := "tok1",
      expiresAt := 604800000 }
    (by rw [← e1]) (by unfold keysNodup; decide) (by decide) (by decide)
    (by decide)
  exact h.1

unseal Rat.mul Rat.add Rat.sub Rat.inv Rat.ofScientific in
/-- C1 counterexample: `checkoutSchema` (`z.number().min(1)`) admits the
non-integral quantity 1.0012, and for two lines of product 1 (price
2.50) with that quantity the stored transaction total is
`(2.503 + 2.503).toFixed(2) = 5.01` while the two line items carry
`totalPrice = (2.503).toFixed(2) = 2.50` each, summing to 5.00: the
total matches neither the exact sum `Σ unitPrice × quantity = 5.006`
nor the sum of the `TransactionItem.totalPrice` fields. -/
theorem checkout_total_item_sum_mismatch :
    (checkout initialStore posSession demoAccount
        [{ productId := 1, quantity := 2503/2500 },
         { productId := 1, quantity := 2503/2500 }] .cash).1 =
      .ok { id := 1, accountId := 1, userId := 1, total := 501/100,
            paymentMethod := .cash } ∧
    ((getTransactionItems (checkout initialStore posSession demoAccount
        [{ productId := 1, quantity := 2503/2500 },
         { productId := 1, quantity := 2503/2500 }] .cash).2 1).map
          (fun it => it.totalPrice)).sum = 5 ∧
    ((getTransactionItems (checkout initialStore posSession demoAccount
        [{ productId := 1, quantity := 2503/2500 },
         { productId := 1, quantity := 2503/2500 }] .cash).2 1).map
          (fun it => it.unitPrice * it.quantity)).sum = 2503/500 ∧
    (501/100 : ℚ) ≠ 5 ∧ (501/100 : ℚ) ≠ 2503/500 := by
  refine ⟨by decide, by decide, by decide, by decide, by decide⟩

theorem sum_cents_int (L : List ℚ) (h : ∀ x ∈ L, ∃ z : ℤ, x * 100 = z) :
    ∃ z : ℤ, L.sum * 100 = z := by
  induction L with
  | nil => exact ⟨0, by simp⟩
  | cons x rest ih =>
      obtain ⟨z1, hz1⟩ := h x (List.mem_cons_self _ _)
      obtain ⟨z2, hz2⟩ := ih (fun y hy => h y (List.mem_cons_of_mem _ hy))
      refine ⟨z1 + z2, ?_⟩
      rw [List.sum_cons, add_mul, hz1, hz2]
      push_cast
      ring

/-- C1 amended: for every checkout that succeeds and whose quantities
are all integral (as the data model intends — the request validator also
admits non-integral quantities, for which the equalities can fail by a
cent, see the counterexample) against products whose prices have at most
two decimals (the `decimal(10,2)` column type), the transaction total
equals `Σ unitPrice × quantity` over its line items exactly — already at
two decimal places, so `toFixed(2)` does not change it — independent of
the order of the items, and equals the sum of the `totalPrice` fields of
the `TransactionItems` created for the transaction. The two freshness
hypotheses say the id counters of the store are ahead of the stored
records, which holds in every store the system builds. -/
theorem checkout_total_correct (s : Store) (sess : Session) (acc : Account)
    (items : List CartItem) (pm : PaymentMethod)
    (hsel : ¬ sess.selectedUserId.getD 0 = 0)
    (hzod : zodItemsOk items = true)
    (hall : ∀ it ∈ items, (getProduct s it.productId).isSome = true)
    (hint : ∀ it ∈ items, it.quantity.den = 1)
    (hprices : ∀ pr ∈ s.products, (pr.2.price * 100).den = 1)
    (hfreshId : ∀ p ∈ s.transactionItems, p.1 < s.currentTransactionItemId)
    (hfreshTxn : ∀ p ∈ s.transactionItems,
      ¬ p.2.transactionId = s.currentTransactionId) :
    ∃ t s2, checkout s sess acc items pm = (.ok t, s2) ∧
      t.total = (items.map (linePrice s)).sum ∧
      t.total = ((getTransactionItems s2 t.id).map
        (fun it => it.unitPrice * it.quantity)).sum ∧
      t.total = ((getTransactionItems s2 t.id).map
        (fun it => it.totalPrice)).sum ∧
      ∀ items2, items.Perm items2 →
        ∃ t2 s3, checkout s sess acc items2 pm = (.ok t2, s3) ∧
          t2.total = t.total := by
  have h2dp : ∀ it ∈ items, ∃ z : ℤ, linePrice s it * 100 = z := by
    intro it hit
    have hs := hall it hit
    cases hp : getProduct s it.productId with
    | none =>
        rw [hp] at hs
        simp at hs
    | some p =>
        have hmem : (it.productId, p) ∈ s.products := mapGet_mem hp
        have hpden := hprices _ hmem
        have hqden := hint it hit
        have e1 : ((p.price * 100).num : ℚ) = p.price * 100 :=
          Rat.coe_int_num_of_den_eq_one hpden
        have e2 : ((it.quantity.num : ℤ) : ℚ) = it.quantity :=
          Rat.coe_int_num_of_den_eq_one hqden
        refine ⟨(p.price * 100).num * it.quantity.num, ?_⟩
        have hl : linePrice s it = p.price * it.quantity := by
          simp [linePrice, hp]
        rw [hl]
        push_cast
        rw [e1, e2]
        ring
  have hT := computeTotalAux_ok s items 0 hall
  have hct : computeTotal s items = .ok ((items.map (linePrice s)).sum) := by
    unfold computeTotal
    rw [hT, zero_add]
  have hTint : ∃ z : ℤ, (items.map (linePrice s)).sum * 100 = z := by
    apply sum_cents_int
    intro x hx
    rcases List.mem_map.mp hx with ⟨it, hit, he⟩
    rw [← he]
    exact h2dp it hit
  have hround : round2 ((items.map (linePrice s)).sum) =
      (items.map (linePrice s)).sum := round2_eq_self hTint
  have hmapr : items.map (fun it => round2 (linePrice s it)) =
      items.map (linePrice s) := by
    apply List.map_congr_left
    intro it hit
    exact round2_eq_self (h2dp it hit)
  refine ⟨{ id := s.currentTransactionId, accountId := acc.id,
            userId := sess.selectedUserId.getD 0,
            total := round2 ((items.map (linePrice s)).sum),
            paymentMethod := pm },
    createItems s.currentTransactionId
      (createTransaction s acc.id (sess.selectedUserId.getD 0)
        (round2 ((items.map (linePrice s)).sum)) pm).2 items,
    ?_, ?_, ?_, ?_, ?_⟩
  · unfold checkout
    rw [if_neg hsel, if_neg (not_not_intro hzod), hct]
    rfl
  · exact hround
  · have hbase : getTransactionItems
        (createTransaction s acc.id (sess.selectedUserId.getD 0)
          (round2 ((items.map (linePrice s)).sum)) pm).2
        s.currentTransactionId = [] := by
      unfold getTransactionItems
      rw [List.filter_eq_nil_iff]
      intro it hit
      rcases List.mem_map.mp hit with ⟨p, hp, he⟩
      rw [← he]
      simpa using hfreshTxn p hp
    obtain ⟨hsum1, hsum2⟩ := createItems_sums s.currentTransactionId items
      (createTransaction s acc.id (sess.selectedUserId.getD 0)
        (round2 ((items.map (linePrice s)).sum)) pm).2 hfreshId hall
    rw [hsum2, hbase]
    simp only [List.map_nil, List.sum_nil, zero_add]
    exact hround
  · have hbase : getTransactionItems
        (createTransaction s acc.id (sess.selectedUserId.getD 0)
          (round2 ((items.map (linePrice s)).sum)) pm).2
        s.currentTransactionId = [] := by
      unfold getTransactionItems
      rw [List.filter_eq_nil_iff]
      intro it hit
      rcases List.mem_map.mp hit with ⟨p, hp, he⟩
      rw [← he]
      simpa using hfreshTxn p hp
    obtain ⟨hsum1, hsum2⟩ := createItems_sums s.currentTransactionId items
      (createTransaction s acc.id (sess.selectedUserId.getD 0)
        (round2 ((items.map (linePrice s)).sum)) pm).2 hfreshId hall
    rw [hsum1, hbase]
    simp only [List.map_nil, List.sum_nil, zero_add]
    rw [show linePrice (createTransaction s acc.id
      (sess.selectedUserId.getD 0)
      (round2 ((items.map (linePrice s)).sum)) pm).2 = linePrice s from rfl]
    rw [hmapr]
    exact hround
  · intro items2 hperm
    have hzod2 : zodItemsOk items2 = true := by
      unfold zodItemsOk at hzod ⊢
      rw [List.all_eq_true] at hzod ⊢
      exact fun it h2 => hzod it (hperm.mem_iff.mpr h2)
    have hall2 : ∀ it ∈ items2, (getProduct s it.productId).isSome = true :=
      fun it h2 => hall it (hperm.mem_iff.mpr h2)
    have hT2 := computeTotalAux_ok s items2 0 hall2
    have hct2 : computeTotal s items2 = .ok ((items2.map (linePrice s)).sum) := by
      unfold computeTotal
      rw [hT2, zero_add]
    have hsame : (items2.map (linePrice s)).sum =
        (items.map (linePrice s)).sum := ((hperm.map (linePrice s)).sum_eq).symm
    refine ⟨{ id := s.currentTransactionId, accountId := acc.id,
              userId := sess.selectedUserId.getD 0,
              total := round2 ((items2.map (linePrice s)).sum),
              paymentMethod := pm },
      createItems s.currentTransactionId
        (createTransaction s acc.id (sess.selectedUserId.getD 0)
          (round2 ((items2.map (linePrice s)).sum)) pm).2 items2,
      ?_, ?_⟩
    · unfold checkout
      rw [if_neg hsel, if_neg (not_not_intro hzod2), hct2]
      rfl
    · show round2 ((items2.map (linePrice s)).sum) =
        round2 ((items.map (linePrice s)).sum)
      rw [hsame]

unseal Rat.mul Rat.add Rat.sub Rat.inv Rat.ofScientific in
/-- Witness for C1 amended: a checkout of two Coca-Cola (2.50) and one
Chips (3.50) against the seeded store succeeds and its total equals the
sum of the created line items' totalPrice fields (8.50). -/
theorem checkout_total_correct_witness :
    ∃ t s2, checkout initialStore posSession demoAccount
        [{ productId := 1, quantity := 2 }, { productId := 4, quantity := 1 }]
        PaymentMethod.cash = (.ok t, s2) ∧
      t.total = ((getTransactionItems s2 t.id).map
        (fun it => it.totalPrice)).sum := by
  obtain ⟨t, s2, h1, h2, h3, h4, h5⟩ := checkout_total_correct initialStore
    posSession demoAccount
    [{ productId := 1, quantity := 2 }, { productId := 4, quantity := 1 }]
    PaymentMethod.cash (by decide) (by decide) (by decide) (by decide)
    (by decide) (by decide) (by decide)
  exact ⟨t, s2, h1, h4⟩
